import Mathlib

/-!
Verification development for the DbaseOperator repository (src/main.py).

The program is a PyQt5 desktop application over a SQLite database.  The
verified core consists of:

* `sort_table_by_relevancy` — the fallback (non-full-text) relevancy mode;
* `on_search` — the FTS5 prefix-match search of the catalog table "ПРАЙС";
* `insert_into_table` — the generic batched insert primitive;
* `on_update_price` — the per-supplier ingestion (delete-then-insert);
* `on_add_table` — supplier registration.

The Python functions are shallowly embedded as executable Lean functions.
Rows are lists of strings (every catalog column is TEXT).  The SQLite
engine itself is external; the semantics of the SQL fragments the program
generates (LIKE patterns, FTS5 MATCH queries, the double-quoted-string
fallback, UNIQUE constraints) are modelled by small evaluators, each
documented where it is defined.
-/

/-- A database row: one string per column (all catalog columns are TEXT). -/
abbrev Row := List String

/-- A table: its column names and its rows in storage (rowid) order. -/
structure Table where
  cols : List String
  rows : List Row
deriving DecidableEq, Repr

/-- Value of row `r` at the column named `c` of a table with columns `cols`
(the empty string when the column is absent; callers check presence first). -/
def cellAt (cols : List String) (c : String) (r : Row) : String :=
  r.getD (cols.indexOf c) ""

/-- SQL `LIMIT` as the source applies it:  `if limit:` in Python treats both
`None` and `0` as "no limit". -/
def applyLimit (limit : Option Nat) (rows : List Row) : List Row :=
  match limit with
  | none => rows
  | some n => if n = 0 then rows else rows.take n

/-- Comparison of two characters under SQLite `LIKE`: case-insensitive for
the basic latin letters only (SQLite folds only ASCII; `Char.toLower`
likewise only folds basic latin letters). -/
def likeEqChar (a b : Char) : Bool :=
  a.toLower == b.toLower

/-- SQLite `LIKE` pattern matching with `ESCAPE '\'`, on char lists.
`%` matches any sequence, `_` any single character, a backslash escapes the
following character; ordinary characters compare ASCII-case-insensitively.
Structural fuel bounds the recursion; every step consumes at least one unit,
so `likeMatch` below always supplies enough. -/
def likeMatchAux : Nat → List Char → List Char → Bool
  | 0, _, _ => false
  | fuel + 1, pat, t =>
    match pat, t with
    | [], t2 => t2.isEmpty
    | '%' :: ps, t2 =>
      likeMatchAux fuel ps t2 ||
        (match t2 with
         | [] => false
         | _ :: ts => likeMatchAux fuel ('%' :: ps) ts)
    | '_' :: ps, t2 =>
      (match t2 with
       | [] => false
       | _ :: ts => likeMatchAux fuel ps ts)
    | '\\' :: p :: ps, t2 =>
      (match t2 with
       | [] => false
       | c :: ts => likeEqChar p c && likeMatchAux fuel ps ts)
    | p :: ps, t2 =>
      (match t2 with
       | [] => false
       | c :: ts => likeEqChar p c && likeMatchAux fuel ps ts)

/-- SQLite `LIKE` on a pattern and a text. -/
def likeMatch (pat text : List Char) : Bool :=
  likeMatchAux (pat.length + text.length + 1) pat text

/-- One `CASE WHEN column LIKE '%' || ? || '%' ESCAPE '\' THEN 1 ELSE 0 END`
term of `sort_table_by_relevancy`.  The bound parameter is the raw request:
the source computes `sanitized_request` but never uses it, so `%` and `_`
inside the request keep their wildcard meaning. -/
def likeContains (cell req : String) : Bool :=
  likeMatch ('%' :: req.toList ++ ['%']) cell.toList

/-- The `(column, request)` pairs that survive `if not request.strip():
continue` — Python `request.strip()` is falsy exactly when every character
of the request is whitespace (or the request is empty). -/
def activePairs (pairs : List (String × String)) : List (String × String) :=
  pairs.filter (fun p => !(p.2.toList.all Char.isWhitespace))

/-- The relevancy expression of `sort_table_by_relevancy`: the sum of the
CASE terms, i.e. the number of active pairs whose request LIKE-matches the
row value in the named column. -/
def relevancyScore (cols : List String) (pairs : List (String × String)) (r : Row) : Nat :=
  (activePairs pairs).countP (fun p => likeContains (cellAt cols p.1 r) p.2)

/-- `sort_table_by_relevancy(db_path, table_name, column_request_pairs, score,
output_column, limit)` from src/main.py (lines 98-168), for the default
`output_column='*'` (the added relevancy column is dropped again on return, so
the result rows are the table rows themselves).

* Pairs with a blank request are skipped when the scoring expression is built.
* With no active pair the source runs `SELECT * FROM table [LIMIT n]` and
  returns all rows in storage order.
* Otherwise it selects rows with `relevancy_score > score` ordered by
  `relevancy_score DESC` (SQLite resolves the alias in `WHERE`); referencing a
  column that does not exist raises `sqlite3.Error`, which this function does
  not catch — modelled as `Except.error`. -/
def sort_table_by_relevancy (tbl : Table) (pairs : List (String × String))
    (score : ℚ) (limit : Option Nat) : Except String (List Row) :=
  if activePairs pairs = [] then
    Except.ok (applyLimit limit tbl.rows)
  else if (activePairs pairs).all (fun p => tbl.cols.contains p.1) then
    Except.ok (applyLimit limit
      (List.insertionSort
        (fun a b => relevancyScore tbl.cols pairs b ≤ relevancyScore tbl.cols pairs a)
        (tbl.rows.filter (fun r => score < (relevancyScore tbl.cols pairs r : ℚ)))))
  else
    Except.error "no such column"

/-- Case-sensitive substring containment, the scoring relation the
specification claims for the fallback relevancy mode (used only to compare
the claim against the embedded source behavior). -/
def containsSub (sub text : String) : Bool :=
  text.toList.tails.any (fun t => sub.toList.isPrefixOf t)

/-- Row score under the specification wording for the fallback relevancy
mode: the number of active pairs whose substring occurs case-sensitively in
the row value of the named column. -/
def caseSensitiveScore (cols : List String) (pairs : List (String × String)) (r : Row) : Nat :=
  (activePairs pairs).countP (fun p => containsSub p.2 (cellAt cols p.1 r))

/-- The maximal nonempty runs of characters satisfying `p` in a char list,
in order; `acc` holds the (reversed) run being read. -/
def wordsByAux (p : Char → Bool) : List Char → List Char → List String
  | [], acc => if acc.isEmpty then [] else [String.mk acc.reverse]
  | c :: cs, acc =>
    if p c then wordsByAux p cs (c :: acc)
    else if acc.isEmpty then wordsByAux p cs []
    else String.mk acc.reverse :: wordsByAux p cs []

/-- The maximal nonempty runs of characters satisfying `p` in a string. -/
def wordsBy (p : Char → Bool) (s : String) : List String :=
  wordsByAux p s.toList []

/-- Python `str.split()` with no argument, used on each search line edit:
the maximal runs of non-whitespace characters (empty pieces never occur). -/
def pySplit (s : String) : List String :=
  wordsBy (fun c => !c.isWhitespace) s

/-- `on_search` gathers `text().split()` of every search line edit into one
flat list of tokens. -/
def searchTokens (fields : List String) : List String :=
  fields.foldr (fun f acc => pySplit f ++ acc) []

/-- Python `"* OR ".join(requests)`. -/
def joinStar : List String → String
  | [] => ""
  | [t] => t
  | t :: ts => t ++ "* OR " ++ joinStar ts

/-- The FTS5 MATCH pattern `on_search` interpolates into its query:
`f'{"* OR ".join(requests)}*'`. -/
def buildPattern (requests : List String) : String :=
  joinStar requests ++ "*"

/-- Character-list form of `buildPattern`, used to reason about parsing. -/
def buildChars : List String → List Char
  | [] => ['*']
  | [t] => t.toList ++ ['*']
  | t :: ts => t.toList ++ '*' :: ' ' :: 'O' :: 'R' :: ' ' :: buildChars ts

/-- A character FTS5 treats as part of a bareword token under the default
unicode61 tokenizer: ASCII alphanumerics and every codepoint ≥ 128. -/
def ftsChar (c : Char) : Bool :=
  c.isAlphanum || 128 ≤ c.toNat

/-- The FTS5 query-language operator barewords. -/
def ftsOperatorWord (s : String) : Bool :=
  s == "OR" || s == "AND" || s == "NOT"

/-- Parser for the class of FTS5 query strings `on_search` generates:
a nonempty sequence `stem* OR stem* OR ... stem*` of prefix terms.  Any
other shape (an empty stem — as in the bare pattern `*` produced when no
token was supplied — an operator bareword as stem, or stray characters) is
an FTS5 syntax error, modelled as `none`.  Fuel is structural; one token is
consumed per unit, so `parseFts` always supplies enough. -/
def parseFtsAux : Nat → List Char → Option (List String)
  | 0, _ => none
  | fuel + 1, cs =>
    let stem := cs.takeWhile ftsChar
    let rest := cs.dropWhile ftsChar
    if stem.isEmpty then none
    else if ftsOperatorWord (String.mk stem) then none
    else
      match rest with
      | '*' :: rest2 =>
        match rest2 with
        | [] => some [String.mk stem]
        | ' ' :: 'O' :: 'R' :: ' ' :: rest3 =>
          (parseFtsAux fuel rest3).map (fun ts => String.mk stem :: ts)
        | _ => none
      | _ => none

/-- Parse an FTS5 MATCH pattern of the generated class into its prefix
terms. -/
def parseFts (pat : String) : Option (List String) :=
  parseFtsAux (pat.toList.length + 1) pat.toList

/-- The words FTS5 (default unicode61 tokenizer) indexes inside one column
value: maximal runs of token characters, case-folded.  The model folds the
basic latin letters; unicode61 also folds further ranges, which no claim
depends on. -/
def ftsWords (s : String) : List String :=
  wordsBy ftsChar (String.mk (s.toList.map Char.toLower))

/-- Whether a row matches the FTS5 prefix term `tok*` in any column: some
indexed word of some column value has the (case-folded) token as a prefix. -/
def tokenPrefixMatch (tok : String) (r : Row) : Bool :=
  r.any (fun cell =>
    (ftsWords cell).any (fun w => List.isPrefixOf (tok.toList.map Char.toLower) w.toList))

/-- A token the FTS5 query parser accepts as a plain bareword: nonempty,
all token characters (which excludes spaces, quotes, `*` and all other
query metacharacters), and not an operator word. -/
def plainTok (s : String) : Bool :=
  !s.toList.isEmpty && s.toList.all ftsChar && !ftsOperatorWord s

/-- Execution of the search statement when the interpolated pattern contains
a single quote.  The SQL text after `MATCH '` is `pat ++ "' ORDER BY rank "`,
so the string literal ends at the first quote inside `pat` and the SQL lexer
reads on from there.  The continuation (never empty: `pat` ends in `*`, so
characters follow the quote) is modelled for the two classes the program's
single-line statement makes determinate:

* `--` directly after the quote starts a line comment that swallows the rest
  of the statement — including the original closing quote and `ORDER BY
  rank` — so the executed statement is `SELECT * FROM "ПРАЙС" WHERE "ПРАЙС"
  MATCH '<lit>'` with no ordering clause: the matching rows come back in
  storage order;
* any other continuation begins with leftover token text or the `*`
  appended per token — a bare identifier or operator dangling after a
  closed literal (as in `abc'def`, which leaves `def*'...'` behind) — and
  the statement fails to parse; `sqlite3` raises and the dialog shows the
  error.  Exotic continuations that would re-enter valid SQL (an injected
  `||`, an `AND` re-using the tail literal, a doubled `''`) are outside the
  modelled fragment and are conservatively grouped here; no theorem below
  about a quote-bearing input steps outside the two determinate classes. -/
def sqlInjected (tbl : Table) (pat : String) : Except String (List Row) :=
  let lit := pat.toList.takeWhile (fun c => !(c == '\''))
  let rest := (pat.toList.dropWhile (fun c => !(c == '\''))).drop 1
  if rest.take 2 = ['-', '-'] then
    match parseFts (String.mk lit) with
    | none => Except.error "fts5: syntax error"
    | some toks =>
      Except.ok (tbl.rows.filter (fun r => toks.any (fun t => tokenPrefixMatch t r)))
  else
    Except.error "SQL syntax error"

/-- `Ui_OpenerSearchPrice.on_search` from src/main.py (lines 842-853).

The source whitespace-splits every search field, interpolates the tokens
raw into `SELECT * FROM "ПРАЙС" WHERE "ПРАЙС" MATCH '<pattern>' ORDER BY rank`
and shows any exception in an error dialog.  The model:

* a single quote inside the pattern ends the SQL string literal early; the
  re-lexed statement is executed per `sqlInjected`;
* otherwise the pattern is parsed by the FTS5 model `parseFts`; failure is
  the engine's syntax error;
* on success the candidate rows are those matching any term as a prefix in
  any column, ordered by the engine's relevance value `rank` ascending
  (FTS5 rank is negative BM25: smaller = more relevant = first).  `rank` is
  abstract here and passed as a parameter. -/
def on_search (rank : Row → Int) (fields : List String) (tbl : Table) :
    Except String (List Row) :=
  let requests := searchTokens fields
  let pat := buildPattern requests
  if pat.toList.contains '\'' then
    sqlInjected tbl pat
  else
    match parseFts pat with
    | none => Except.error "fts5: syntax error"
    | some toks =>
      Except.ok (List.insertionSort (fun a b => rank a ≤ rank b)
        (tbl.rows.filter (fun r => toks.any (fun t => tokenPrefixMatch t r))))

/-- A spreadsheet as `pd.read_excel` delivers it: row 1 is the header, the
remaining rows are the data. -/
structure Sheet where
  header : List String
  rows : List Row
deriving DecidableEq, Repr

/-- The database state the ingestion functions operate on:

* `priceCols`/`price` — the FTS5 catalog table `"ПРАЙС"` (first column
  `"Поставщик"`, then the user-declared fields);
* `suppliers` — the registry `"СПИСОК ПОСТАВЩИКОВ"` as (Название, Путь)
  pairs in insertion order (the autoincrement `Индекс` is left implicit;
  both columns carry a UNIQUE constraint);
* `sideTables` — the per-supplier column-map tables, keyed by table name,
  each a list of (НАЗВАНИЕ В БД, НАЗВАНИЕ У ПОСТАВЩИКА) rows in insertion
  order. -/
structure DBState where
  priceCols : List String
  price : List Row
  suppliers : List (String × String)
  sideTables : List (String × List (String × String))
deriving DecidableEq, Repr

/-- The batch loop of `insert_into_table`:
`for i in range(0, len(values), batch_size)` with `conn.commit()` after each
batch.  `f b = true` injects a `sqlite3.Error` while batch `b` executes
(disk or locking failure); a row whose arity differs from the column count
likewise raises inside `executemany`.  Either way the `except` branch rolls
back only the current batch and returns 0 — batches already committed stay.
Fuel is structural; every step consumes at least one row, so
`insert_into_table` always supplies enough (batch size 0 would raise
`ValueError` in Python and is never used; the model steps by `max 1 bsz`). -/
def insertLoop (f : Nat → Bool) (ncols bsz : Nat) :
    Nat → Nat → Nat → List Row → List Row → Nat × List Row
  | _, _, ins, table, [] => (ins, table)
  | 0, _, ins, table, _ => (ins, table)
  | fuel + 1, b, ins, table, rest =>
    let step := max 1 bsz
    let batch := rest.take step
    if f b || batch.any (fun r => !(r.length == ncols)) then (0, table)
    else insertLoop f ncols bsz fuel (b + 1) (ins + batch.length) (table ++ batch) (rest.drop step)

/-- `insert_into_table(parent, db_path, table_name, columns, values,
batch_size)` from src/main.py (lines 247-304), acting on the target table's
rows.  Guards exactly as the source: empty `values` and a column count
differing from `len(values[0])` warn and return 0 before touching the
database; a column name not present in the table makes the INSERT fail at
prepare time inside the first `executemany`, caught and reported as 0 with
nothing committed.  Otherwise the batch loop runs; the returned pair is
(rows reported inserted, resulting table rows). -/
def insert_into_table (f : Nat → Bool) (tableCols cols : List String)
    (values : List Row) (bsz : Nat) (table : List Row) : Nat × List Row :=
  if values.isEmpty then (0, table)
  else if !(cols.length == (values.headD []).length) then (0, table)
  else if !(cols.all (fun c => tableCols.contains c)) then (0, table)
  else insertLoop f cols.length bsz values.length 0 0 table values

/-- Project a spreadsheet to the mapped source columns, in mapping order:
`pd.read_excel(path)[excel_columns]`.  A requested column missing from the
header raises `KeyError` in pandas — modelled as `none`. -/
def projectSheet (sheet : Sheet) (cols : List String) : Option (List Row) :=
  if cols.all (fun c => sheet.header.contains c) then
    some (sheet.rows.map (fun r => cols.map (fun c => cellAt sheet.header c r)))
  else none

/-- One iteration of the loop of `Ui_OpenerSearchPrice.on_update_price`
(src/main.py lines 805-828) for the registry entry `e = (name, path)`:

1. read the supplier's column-map side table (`get_table_data`); a missing
   table surfaces as an exception;
2. `sql_columns = ["Поставщик"] + canonical names`,
   `excel_columns = source names`;
3. read and project the spreadsheet at `path`;
4. prefix every projected row with the supplier name;
5. execute `DELETE FROM "ПРАЙС" WHERE "Название"='{path}'`.  The catalog
   normally has no column `"Название"` (that is a registry column); SQLite's
   double-quoted-string fallback then reads `"Название"` as the string
   literal `'Название'`, making the WHERE clause row-independent: every row
   is deleted when `path = "Название"`, otherwise none.  When a column
   `"Название"` does exist the comparison is against the spreadsheet path;
6. `insert_into_table` into `"ПРАЙС"` with the default batch size 100 (its
   errors are caught inside and reported, not raised).

`sheets` maps spreadsheet paths to their contents; `f` is the storage
failure oracle passed through to the insert.  The second component is
`some message` when an uncaught exception escapes the iteration (the state
then reflects everything already committed). -/
def updateOne (f : Nat → Bool) (sheets : List (String × Sheet)) (st : DBState)
    (e : String × String) : DBState × Option String :=
  match List.lookup e.1 st.sideTables with
  | none => (st, some "no such table")
  | some mapping =>
    let sqlCols := "Поставщик" :: mapping.map (fun p => p.1)
    let excelCols := mapping.map (fun p => p.2)
    match List.lookup e.2 sheets with
    | none => (st, some "spreadsheet read failed")
    | some sheet =>
      match projectSheet sheet excelCols with
      | none => (st, some "missing spreadsheet column")
      | some proj =>
        let values := proj.map (fun r => e.1 :: r)
        let deleted :=
          if st.priceCols.contains "Название" then
            st.price.filter (fun r => !(cellAt st.priceCols "Название" r == e.2))
          else if ("Название" : String) == e.2 then []
          else st.price
        let ins := insert_into_table f st.priceCols sqlCols values 100 deleted
        ({ st with price := ins.2 }, none)

/-- `Ui_OpenerSearchPrice.on_update_price(tables)` over an explicit list of
(name, path) entries — the shape in which both call sites invoke it (the
menu action passes the full registry contents, `on_add_table` a singleton).
Entries are processed in order; the first uncaught exception aborts the
rest. -/
def on_update_price_f (f : Nat → Bool) (sheets : List (String × Sheet))
    (tables : List (String × String)) (st : DBState) : DBState × Option String :=
  match tables with
  | [] => (st, none)
  | e :: rest =>
    let r := updateOne f sheets st e
    match r.2 with
    | none => on_update_price_f f sheets rest r.1
    | some err => (r.1, some err)

/-- `Ui_Add_table_dialog.on_add_table` (src/main.py lines 772-789), the
supplier-registration flow, with `name`/`path` the dialog's supplier name
and spreadsheet path and `grid` the (catalog column, chosen source column)
rows of the mapping grid:

1. `createTable` creates the side table named after the supplier; if a
   table of that name already exists (a previously registered supplier, or
   one of the two fixed tables) `CREATE TABLE` fails, `createTable` reports
   the error and returns False, and `on_add_table` returns with nothing
   else done;
2. the (name, path) row is inserted into the registry; a UNIQUE violation
   on either column is caught inside `insert_into_table` and reported, the
   registry is left unchanged, and — the return value being discarded —
   the flow continues regardless;
3. the grid rows are inserted into the fresh side table (grid rows come
   from the dialog, one per catalog column, so arity always matches and
   the TEXT primary key is never duplicated);
4. `on_update_price([[name, path]])` ingests the new supplier. -/
def on_add_table (f : Nat → Bool) (sheets : List (String × Sheet)) (st : DBState)
    (name path : String) (grid : List (String × String)) : DBState × Option String :=
  if name == "ПРАЙС" || name == "СПИСОК ПОСТАВЩИКОВ"
      || st.sideTables.any (fun p => p.1 == name) then
    (st, some "table already exists")
  else
    let st1 : DBState := { st with sideTables := st.sideTables ++ [(name, [])] }
    let st2 : DBState :=
      if st1.suppliers.any (fun p => p.1 == name || p.2 == path) then st1
      else { st1 with suppliers := st1.suppliers ++ [(name, path)] }
    let st3 : DBState :=
      { st2 with sideTables :=
          st2.sideTables.map (fun p => if p.1 == name then (p.1, p.2 ++ grid) else p) }
    on_update_price_f f sheets [(name, path)] st3

/-- Number of registry rows carrying a given supplier name. -/
def countName (n : String) (sup : List (String × String)) : Nat :=
  sup.countP (fun p => p.1 == n)

/-- A catalog with the default columns, already holding one row of supplier
"Acme" from a previous ingestion of the registered spreadsheet. -/
def c1St : DBState :=
  { priceCols := ["Поставщик", "Артикул"], price := [["Acme", "OLD1"]],
    suppliers := [("Acme", "acme.xlsx")], sideTables := [("Acme", [("Артикул", "Код")])] }

/-- The modified Acme spreadsheet: two fresh rows. -/
def c1Sheets : List (String × Sheet) :=
  [("acme.xlsx", { header := ["Код"], rows := [["N1"], ["N2"]] })]

/-- A catalog already holding one row of supplier "Beta". -/
def c2St : DBState :=
  { priceCols := ["Поставщик", "Артикул"], price := [["Beta", "OLDX"]],
    suppliers := [("Beta", "beta.xlsx")], sideTables := [("Beta", [("Артикул", "K")])] }

/-- The modified Beta spreadsheet: two fresh rows. -/
def c2Sheets : List (String × Sheet) :=
  [("beta.xlsx", { header := ["K"], rows := [["B1"], ["B2"]] })]

/-- An empty catalog with supplier "S" registered. -/
def c6St : DBState :=
  { priceCols := ["Поставщик", "Артикул"], price := [],
    suppliers := [("S", "p.xlsx")], sideTables := [("S", [("Артикул", "c")])] }

/-- A 101-row spreadsheet for supplier "S": one row more than the default
batch size of 100, so a storage failure in the second batch strikes after
the first batch was already committed. -/
def c6Sheets : List (String × Sheet) :=
  [("p.xlsx", { header := ["c"], rows := List.replicate 101 ["x"] })]

instance exceptDecEq {ε α : Type} [DecidableEq ε] [DecidableEq α] :
    DecidableEq (Except ε α) := fun a b =>
  match a, b with
  | Except.ok x, Except.ok y =>
    if h : x = y then isTrue (by rw [h]) else isFalse (fun he => h (Except.ok.inj he))
  | Except.error x, Except.error y =>
    if h : x = y then isTrue (by rw [h]) else isFalse (fun he => h (Except.error.inj he))
  | Except.ok _, Except.error _ => isFalse (fun he => Except.noConfusion he)
  | Except.error _, Except.ok _ => isFalse (fun he => Except.noConfusion he)

instance sortKeyTotal {α β : Type} [LinearOrder β] (key : α → β) :
    IsTotal α (fun a b => key a ≤ key b) :=
  ⟨fun a b => le_total (key a) (key b)⟩

instance sortKeyTrans {α β : Type} [LinearOrder β] (key : α → β) :
    IsTrans α (fun a b => key a ≤ key b) :=
  ⟨fun _ _ _ h1 h2 => le_trans h1 h2⟩

instance sortKeyTotalDesc {α β : Type} [LinearOrder β] (key : α → β) :
    IsTotal α (fun a b => key b ≤ key a) :=
  ⟨fun a b => le_total (key b) (key a)⟩

instance sortKeyTransDesc {α β : Type} [LinearOrder β] (key : α → β) :
    IsTrans α (fun a b => key b ≤ key a) :=
  ⟨fun _ _ _ h1 h2 => le_trans h2 h1⟩

/-- C5: `insert_into_table` returns 0 and leaves the table untouched when the
values list is empty or when the column count differs from the arity of the
first row, for every failure oracle, batch size and target table; and a
result that did mutate the table can only arise when the lengths matched. -/
theorem insert_into_table_guards (f : Nat → Bool) (tableCols cols : List String)
    (values : List Row) (bsz : Nat) (table : List Row)
    (h : values = [] ∨ cols.length ≠ (values.headD []).length) :
    insert_into_table f tableCols cols values bsz table = (0, table) := by
  unfold insert_into_table
  rcases h with h | h
  · simp [h]
  · have hb : (cols.length == (values.headD []).length) = false := by
      simpa using h
    by_cases hv : values.isEmpty = true
    · rw [if_pos hv]
    · rw [if_neg hv, hb]
      simp

theorem insert_into_table_guards_witness :
    insert_into_table (fun _ => false) ["a"] ["a", "b"] [["x"]] 100 [["q"]] = (0, [["q"]]) :=
  insert_into_table_guards _ _ _ _ _ _ (Or.inr (by decide))

/-- C10: when every request is blank, `sort_table_by_relevancy` returns all
rows of the table in storage order, with no threshold filter and no
relevancy ordering — only the limit is applied when one is given. -/
theorem relevancy_all_blank_returns_all (tbl : Table) (pairs : List (String × String))
    (score : ℚ) (limit : Option Nat)
    (h : ∀ p ∈ pairs, p.2.toList.all Char.isWhitespace = true) :
    sort_table_by_relevancy tbl pairs score limit = Except.ok (applyLimit limit tbl.rows) := by
  have hap : activePairs pairs = [] := by
    apply List.filter_eq_nil_iff.mpr
    intro p hp
    simp only [h p hp]
    decide
  unfold sort_table_by_relevancy
  rw [if_pos hap]

theorem relevancy_all_blank_returns_all_witness :
    sort_table_by_relevancy ⟨["c"], [["v"], ["w"]]⟩ [("c", " ")] 0 (some 1) =
      Except.ok (applyLimit (some 1) [["v"], ["w"]]) :=
  relevancy_all_blank_returns_all _ _ _ _ (by decide)

/-- C7, counterexample to the case-sensitivity part: the request "abc" LIKE-
matches the value "ABC" (SQL LIKE folds basic latin case), so the source
returns the row, although the case-sensitive score the specification
describes is 0 and a threshold of 0 should then have excluded it. -/
theorem relevancy_case_counterexample :
    sort_table_by_relevancy ⟨["c1"], [["ABC"]]⟩ [("c1", "abc")] 0 none = Except.ok [["ABC"]] ∧
      caseSensitiveScore ["c1"] [("c1", "abc")] ["ABC"] = 0 := by
  decide

/-- C7 as amended: with at least one active pair and all named columns
present, the fallback relevancy mode returns exactly the rows whose
LIKE-based score (ASCII-case-insensitive, `%`/`_` in requests acting as
wildcards) strictly exceeds the threshold, ordered by descending score. -/
theorem relevancy_fallback_like_semantics (tbl : Table) (pairs : List (String × String))
    (score : ℚ) (h1 : activePairs pairs ≠ [])
    (h2 : (activePairs pairs).all (fun p => tbl.cols.contains p.1) = true) :
    ∃ out, sort_table_by_relevancy tbl pairs score none = Except.ok out ∧
      List.Perm out (tbl.rows.filter (fun r => score < (relevancyScore tbl.cols pairs r : ℚ))) ∧
      out.Sorted (fun a b => relevancyScore tbl.cols pairs b ≤ relevancyScore tbl.cols pairs a) := by
  have heq : sort_table_by_relevancy tbl pairs score none =
      Except.ok (List.insertionSort
        (fun a b => relevancyScore tbl.cols pairs b ≤ relevancyScore tbl.cols pairs a)
        (tbl.rows.filter (fun r => score < (relevancyScore tbl.cols pairs r : ℚ)))) := by
    unfold sort_table_by_relevancy
    rw [if_neg h1, if_pos h2]
    rfl
  exact ⟨_, heq, List.perm_insertionSort _ _, List.sorted_insertionSort _ _⟩

theorem relevancy_fallback_like_semantics_witness :
    ∃ out, sort_table_by_relevancy ⟨["c1"], [["ABC"], ["zz"], ["xabcx"]]⟩
        [("c1", "abc")] 0 none = Except.ok out ∧
      List.Perm out ((⟨["c1"], [["ABC"], ["zz"], ["xabcx"]]⟩ : Table).rows.filter
        (fun r => (0 : ℚ) < (relevancyScore ["c1"] [("c1", "abc")] r : ℚ))) ∧
      out.Sorted (fun a b =>
        relevancyScore ["c1"] [("c1", "abc")] b ≤ relevancyScore ["c1"] [("c1", "abc")] a) :=
  relevancy_fallback_like_semantics _ _ _ (by decide) (by decide)

theorem string_mk_toList (s : String) : String.mk s.toList = s := rfl

theorem toList_buildPattern : ∀ toks : List String, (buildPattern toks).toList = buildChars toks
  | [] => rfl
  | [_] => rfl
  | t :: t2 :: ts => by
    have ih := toList_buildPattern (t2 :: ts)
    have hsep : ("* OR " : String).toList = ['*', ' ', 'O', 'R', ' '] := rfl
    simp only [buildPattern, joinStar, buildChars] at ih ⊢
    simp only [String.toList, String.data_append] at ih ⊢
    rw [List.append_assoc, List.append_assoc, ih]
    simp [hsep]

theorem toks_length_le_buildChars : ∀ toks : List String, toks.length ≤ (buildChars toks).length
  | [] => by simp [buildChars]
  | [t] => by simp [buildChars]
  | t :: t2 :: ts => by
    have ih := toks_length_le_buildChars (t2 :: ts)
    simp only [buildChars, List.length_append, List.length_cons] at ih ⊢
    omega

theorem mem_buildChars_cases : ∀ (toks : List String) (c : Char), c ∈ buildChars toks →
    (∃ t ∈ toks, c ∈ t.toList) ∨ c = '*' ∨ c = ' ' ∨ c = 'O' ∨ c = 'R'
  | [], c, h => by
    simp [buildChars] at h
    tauto
  | [t], c, h => by
    simp [buildChars] at h
    rcases h with h | h
    · exact Or.inl ⟨t, by simp, h⟩
    · tauto
  | t :: t2 :: ts, c, h => by
    simp only [buildChars, List.mem_append, List.mem_cons] at h
    rcases h with h | h | h | h | h | h | h
    · exact Or.inl ⟨t, by simp, h⟩
    · tauto
    · tauto
    · tauto
    · tauto
    · tauto
    · rcases mem_buildChars_cases (t2 :: ts) c h with ⟨u, hu, hc⟩ | h
      · exact Or.inl ⟨u, by simp [hu], hc⟩
      · exact Or.inr h

theorem mem_buildChars_of_mem : ∀ (toks : List String) (t : String) (c : Char),
    t ∈ toks → c ∈ t.toList → c ∈ buildChars toks
  | [], _, _, ht, _ => by simp at ht
  | [u], t, c, ht, hc => by
    simp at ht
    subst ht
    exact List.mem_append_left _ hc
  | u :: u2 :: us, t, c, ht, hc => by
    simp only [List.mem_cons] at ht
    rcases ht with ht | ht
    · subst ht
      exact List.mem_append_left _ hc
    · have hrec := mem_buildChars_of_mem (u2 :: us) t c (by simpa using ht) hc
      exact List.mem_append_right _ (by simp [hrec])

theorem takeWhile_append_stop (p : Char → Bool) :
    ∀ (l1 : List Char) (c : Char) (l2 : List Char), l1.all p = true → p c = false →
      ((l1 ++ c :: l2).takeWhile p = l1 ∧ (l1 ++ c :: l2).dropWhile p = c :: l2) := by
  intro l1
  induction l1 with
  | nil =>
    intro c l2 _ hc
    simp [List.takeWhile, List.dropWhile, hc]
  | cons a l ih =>
    intro c l2 ha hc
    simp only [List.all_cons, Bool.and_eq_true] at ha
    have := ih c l2 ha.2 hc
    simp [List.takeWhile, List.dropWhile, ha.1, this.1, this.2]

theorem parseFtsAux_inverts : ∀ (toks : List String) (fuel : Nat), toks ≠ [] →
    (∀ t ∈ toks, plainTok t = true) → toks.length ≤ fuel →
    parseFtsAux fuel (buildChars toks) = some toks
  | [], _, hne, _, _ => absurd rfl hne
  | [t], fuel, _, hp, hfuel => by
    have hplain := hp t (by simp)
    simp only [plainTok, Bool.and_eq_true, Bool.not_eq_true'] at hplain
    obtain ⟨⟨hemp, hall⟩, hop⟩ := hplain
    cases fuel with
    | zero => simp at hfuel
    | succ fl =>
      have hsplit := takeWhile_append_stop ftsChar t.toList '*' [] hall (by decide)
      simp only [buildChars, parseFtsAux]
      rw [hsplit.1, hsplit.2]
      rw [if_neg (by simpa using hemp)]
      rw [string_mk_toList]
      rw [if_neg (by simp [hop])]
      rfl
  | t :: t2 :: ts, fuel, _, hp, hfuel => by
    have hplain := hp t (by simp)
    simp only [plainTok, Bool.and_eq_true, Bool.not_eq_true'] at hplain
    obtain ⟨⟨hemp, hall⟩, hop⟩ := hplain
    cases fuel with
    | zero => simp at hfuel
    | succ fl =>
      have hrec := parseFtsAux_inverts (t2 :: ts) fl (by simp)
        (fun u hu => hp u (by simp [hu]))
        (by simp only [List.length_cons] at hfuel ⊢; omega)
      have hsplit := takeWhile_append_stop ftsChar t.toList '*'
        (' ' :: 'O' :: 'R' :: ' ' :: buildChars (t2 :: ts)) hall (by decide)
      simp only [buildChars, parseFtsAux]
      rw [hsplit.1, hsplit.2]
      rw [if_neg (by simpa using hemp)]
      rw [string_mk_toList]
      rw [if_neg (by simp [hop])]
      show Option.map (fun us => t :: us) (parseFtsAux fl (buildChars (t2 :: ts))) =
        some (t :: t2 :: ts)
      rw [hrec]
      rfl

/-- The FTS5 engine model parses the pattern `on_search` builds from plain
tokens back into exactly those tokens. -/
theorem parseFts_buildPattern (toks : List String) (hne : toks ≠ [])
    (hp : ∀ t ∈ toks, plainTok t = true) :
    parseFts (buildPattern toks) = some toks := by
  unfold parseFts
  rw [toList_buildPattern]
  exact parseFtsAux_inverts toks _ hne hp
    (le_trans (toks_length_le_buildChars toks) (Nat.le_succ _))

/-- A pattern built from plain tokens contains no single quote: the SQL
string literal around it stays intact. -/
theorem buildPattern_no_quote (toks : List String)
    (hp : ∀ t ∈ toks, plainTok t = true) :
    (buildPattern toks).toList.contains '\'' = false := by
  rw [toList_buildPattern]
  by_contra hc
  have hmem : '\'' ∈ buildChars toks := by
    have : (buildChars toks).contains '\'' = true := by
      cases h : (buildChars toks).contains '\''
      · exact absurd h hc
      · rfl
    exact List.mem_of_elem_eq_true this
  rcases mem_buildChars_cases toks '\'' hmem with ⟨t, ht, hct⟩ | h | h | h | h
  · have := hp t ht
    simp only [plainTok, Bool.and_eq_true] at this
    have hall := this.1.2
    have := List.all_eq_true.mp hall '\'' hct
    simp [ftsChar] at this
  all_goals simp at h

theorem take_split_at {α : Type} :
    ∀ (l : List α) (m n : Nat), l.take (m + n) = l.take m ++ (l.drop m).take n := by
  intro l m
  induction m generalizing l with
  | zero => intro n; simp
  | succ m ih =>
    intro n
    cases l with
    | nil => simp
    | cons c cs =>
      have harith : m + 1 + n = (m + n) + 1 := by omega
      rw [harith]
      simp [List.take_succ_cons, List.drop_succ_cons, ih cs n]

/-- Running the batch loop with the first storage failure in batch `d`
(relative to the starting batch index `b`) commits exactly the `d` leading
batches and returns 0: the already-committed prefix of `bsz * d` rows stays
in the table. -/
theorem insertLoop_first_fail (f : Nat → Bool) (ncols bsz : Nat) (hbsz : 0 < bsz) :
    ∀ (d fuel b ins : Nat) (table rest : List Row),
      f (b + d) = true → (∀ j, j < d → f (b + j) = false) →
      (∀ r ∈ rest, r.length = ncols) →
      bsz * d < rest.length → rest.length ≤ fuel →
      insertLoop f ncols bsz fuel b ins table rest = (0, table ++ rest.take (bsz * d)) := by
  have hstep : max 1 bsz = bsz := Nat.max_eq_right hbsz
  intro d
  induction d with
  | zero =>
    intro fuel b ins table rest hf _ _ hwin hfuel
    cases rest with
    | nil => simp at hwin
    | cons r rs =>
      cases fuel with
      | zero => simp at hfuel
      | succ fl =>
        simp only [insertLoop, hstep]
        rw [Nat.add_zero] at hf
        simp [hf]
  | succ d ih =>
    intro fuel b ins table rest hf hprev harity hwin hfuel
    cases rest with
    | nil => simp at hwin
    | cons r rs =>
      cases fuel with
      | zero =>
        have : 0 < (r :: rs).length := by simp
        omega
      | succ fl =>
        have hb0 : f b = false := by
          have := hprev 0 (by omega)
          simpa using this
        have hbatch : ((r :: rs).take (max 1 bsz)).any (fun q => !(q.length == ncols)) = false := by
          rw [List.any_eq_false]
          intro q hq
          have hqm : q ∈ r :: rs := List.take_subset _ _ hq
          simp [harity q hqm]
        simp only [insertLoop, hstep] at hbatch ⊢
        rw [hb0, hbatch]
        simp only [Bool.or_self, Bool.false_or, if_neg (by simp : ¬ (false = true))]
        have hrec := ih fl (b + 1) (ins + ((r :: rs).take bsz).length)
          (table ++ (r :: rs).take bsz) ((r :: rs).drop bsz)
          (by have : b + 1 + d = b + (d + 1) := by omega
              rw [this]; exact hf)
          (by intro j hj
              have : b + 1 + j = b + (j + 1) := by omega
              rw [this]; exact hprev (j + 1) (by omega))
          (by intro q hq; exact harity q (List.drop_subset _ _ hq))
          (by rw [List.length_drop]
              rw [Nat.mul_succ] at hwin
              omega)
          (by rw [List.length_drop]; omega)
        rw [hrec]
        have htake : (r :: rs).take (bsz * (d + 1)) =
            (r :: rs).take bsz ++ ((r :: rs).drop bsz).take (bsz * d) := by
          have : bsz * (d + 1) = bsz + bsz * d := by
            rw [Nat.mul_succ]; omega
          rw [this, take_split_at]
        rw [htake, List.append_assoc]

/-- With no storage failure and every row of the right arity, the batch loop
inserts everything: it returns the accumulated count plus all remaining rows
and appends them to the table. -/
theorem insertLoop_success (f : Nat → Bool) (ncols bsz : Nat) (hbsz : 0 < bsz)
    (hf : ∀ j, f j = false) :
    ∀ (fuel : Nat) (rest : List Row) (b ins : Nat) (table : List Row),
      (∀ r ∈ rest, r.length = ncols) → rest.length ≤ fuel →
      insertLoop f ncols bsz fuel b ins table rest = (ins + rest.length, table ++ rest) := by
  have hstep : max 1 bsz = bsz := Nat.max_eq_right hbsz
  intro fuel
  induction fuel with
  | zero =>
    intro rest b ins table _ hfuel
    have : rest = [] := by
      cases rest with
      | nil => rfl
      | cons r rs => simp at hfuel
    subst this
    simp [insertLoop]
  | succ fl ih =>
    intro rest b ins table harity hfuel
    cases rest with
    | nil => simp [insertLoop]
    | cons r rs =>
      have hbatch : ((r :: rs).take (max 1 bsz)).any (fun q => !(q.length == ncols)) = false := by
        rw [List.any_eq_false]
        intro q hq
        simp [harity q (List.take_subset _ _ hq)]
      simp only [insertLoop, hstep] at hbatch ⊢
      rw [hf b, hbatch]
      simp only [Bool.or_self, if_neg (by simp : ¬ (false = true))]
      rw [ih ((r :: rs).drop bsz) (b + 1) (ins + ((r :: rs).take bsz).length)
        (table ++ (r :: rs).take bsz)
        (fun q hq => harity q (List.drop_subset _ _ hq))
        (by rw [List.length_drop]; omega)]
      rw [List.length_take, List.length_drop]
      have hmin : min bsz (r :: rs).length + ((r :: rs).length - bsz) = (r :: rs).length := by
        rcases Nat.le_total bsz (r :: rs).length with h | h
        · rw [Nat.min_eq_left h]; omega
        · rw [Nat.min_eq_right h]; omega
      rw [List.append_assoc, List.take_append_drop, Nat.add_assoc, hmin]

/-- With no storage failure, matching arities and known columns,
`insert_into_table` reports all rows inserted and appends exactly `values`
to the table — in the ingestion this makes the inserted rows exactly the
projected spreadsheet rows, each prefixed with the supplier name, with
count `len(values)`. -/
theorem insert_into_table_success (f : Nat → Bool) (tableCols cols : List String)
    (values : List Row) (bsz : Nat) (table : List Row)
    (hbsz : 0 < bsz) (hf : ∀ j, f j = false) (hne : values ≠ [])
    (hlen : cols.length = (values.headD []).length)
    (hsub : cols.all (fun c => tableCols.contains c) = true)
    (harity : ∀ r ∈ values, r.length = cols.length) :
    insert_into_table f tableCols cols values bsz table = (values.length, table ++ values) := by
  unfold insert_into_table
  have hv : values.isEmpty = false := by
    cases values with
    | nil => exact absurd rfl hne
    | cons x xs => rfl
  rw [hv, (by rw [hlen] : (cols.length == (values.headD []).length) = (cols.length == cols.length))]
  simp only [beq_self_eq_true, Bool.not_true, Bool.false_eq_true, if_false, hsub,
    Bool.not_false, if_true]
  rw [insertLoop_success f cols.length bsz hbsz hf values.length values 0 0 table
    harity (le_refl _)]
  rw [Nat.zero_add]

/-- C6 as amended, insert side: when a storage error first strikes batch `b`
(and the pre-insert guards pass), `insert_into_table` reports 0 but the
batches committed before the failure persist — the table ends as the old
rows plus the first `bsz * b` new rows, a partial insertion. -/
theorem insert_into_table_partial_commit (f : Nat → Bool) (tableCols cols : List String)
    (values : List Row) (bsz : Nat) (table : List Row) (b : Nat)
    (hbsz : 0 < bsz) (hf : f b = true) (hprev : ∀ j, j < b → f j = false)
    (hne : values ≠ []) (hlen : cols.length = (values.headD []).length)
    (hsub : cols.all (fun c => tableCols.contains c) = true)
    (harity : ∀ r ∈ values, r.length = cols.length)
    (hwin : bsz * b < values.length) :
    insert_into_table f tableCols cols values bsz table = (0, table ++ values.take (bsz * b)) := by
  unfold insert_into_table
  have hv : values.isEmpty = false := by
    cases values with
    | nil => exact absurd rfl hne
    | cons x xs => rfl
  rw [hv, (by rw [hlen] : (cols.length == (values.headD []).length) = (cols.length == cols.length))]
  simp only [beq_self_eq_true, Bool.not_true, Bool.false_eq_true, if_false, hsub,
    Bool.not_false, if_true]
  exact insertLoop_first_fail f cols.length bsz hbsz b values.length 0 0 table values
    (by simpa using hf)
    (by intro j hj; simpa using hprev j hj)
    harity hwin (le_refl _)

theorem insert_into_table_partial_commit_witness :
    insert_into_table (fun n => n == 1) ["c1"] ["c1"] [["a"], ["b"], ["c"]] 1 [["q"]] =
      (0, [["q"]] ++ [["a"], ["b"], ["c"]].take (1 * 1)) :=
  insert_into_table_partial_commit (fun n => n == 1) ["c1"] ["c1"] [["a"], ["b"], ["c"]]
    1 [["q"]] 1 (by decide) (by decide) (by decide) (by decide) (by decide) (by decide)
    (by decide) (by decide)

/-- C6, counterexample: ingesting the 101-row spreadsheet of supplier "S"
into an empty catalog with a storage failure during the second batch leaves
the catalog holding exactly the first 100 rows — neither the pre-ingestion
state (empty) nor the fully-replaced state (all 101 rows), i.e. a partial
replacement. -/
theorem ingestion_partial_replacement_counterexample :
    ¬ ((on_update_price_f (fun b => b == 1) c6Sheets [("S", "p.xlsx")] c6St).1.price = c6St.price
       ∨ (on_update_price_f (fun b => b == 1) c6Sheets [("S", "p.xlsx")] c6St).1.price =
           List.replicate 101 ["S", "x"]) := by
  decide

/-- C1: re-ingesting supplier "Acme" after its spreadsheet changed raises no
error, yet the catalog afterwards holds 3 rows with partition value "Acme" —
the old row plus the 2 new ones — although the new spreadsheet has only 2
rows.  The DELETE statement names the column "Название", which the catalog
does not have; through SQLite's double-quoted-string fallback the WHERE
clause compares two unequal constants, so no prior row is removed. -/
theorem reingest_keeps_old_rows :
    (on_update_price_f (fun _ => false) c1Sheets [("Acme", "acme.xlsx")] c1St).2 = none ∧
    (on_update_price_f (fun _ => false) c1Sheets [("Acme", "acme.xlsx")] c1St).1.price.countP
      (fun r => cellAt c1St.priceCols "Поставщик" r == "Acme") = 3 ∧
    (List.lookup "acme.xlsx" c1Sheets).map Sheet.rows = some [["N1"], ["N2"]] := by
  decide

/-- C2: after re-ingesting supplier "Beta" whose spreadsheet now holds the
two rows B1, B2, selecting the catalog rows with partition value "Beta"
does not return exactly the projected, prefixed rows of the spreadsheet:
the stale row survives in front of them. -/
theorem reingest_select_not_exact :
    (on_update_price_f (fun _ => false) c2Sheets [("Beta", "beta.xlsx")] c2St).1.price.filter
        (fun r => cellAt c2St.priceCols "Поставщик" r == "Beta") =
      [["Beta", "OLDX"], ["Beta", "B1"], ["Beta", "B2"]] ∧
    [["Beta", "OLDX"], ["Beta", "B1"], ["Beta", "B2"]] ≠ [["Beta", "B1"], ["Beta", "B2"]] := by
  decide

/-- One ingestion iteration only rewrites the catalog rows: the registry and
the side tables are untouched. -/
theorem updateOne_preserves (f : Nat → Bool) (sheets : List (String × Sheet))
    (st : DBState) (e : String × String) :
    (updateOne f sheets st e).1.suppliers = st.suppliers ∧
    (updateOne f sheets st e).1.sideTables = st.sideTables := by
  unfold updateOne
  dsimp only
  constructor <;> (repeat' split) <;> rfl

/-- `on_update_price` only rewrites the catalog rows, whatever entries it
processes and wherever it stops. -/
theorem on_update_price_preserves (f : Nat → Bool) (sheets : List (String × Sheet)) :
    ∀ (tables : List (String × String)) (st : DBState),
      (on_update_price_f f sheets tables st).1.suppliers = st.suppliers ∧
      (on_update_price_f f sheets tables st).1.sideTables = st.sideTables := by
  intro tables
  induction tables with
  | nil => intro st; exact ⟨rfl, rfl⟩
  | cons e rest ih =>
    intro st
    have hp := updateOne_preserves f sheets st e
    unfold on_update_price_f
    cases hr : (updateOne f sheets st e).2 with
    | none =>
      have hrest := ih (updateOne f sheets st e).1
      simp only [hr]
      exact ⟨hrest.1.trans hp.1, hrest.2.trans hp.2⟩
    | some err =>
      simp only [hr]
      exact ⟨hp.1, hp.2⟩

/-- When the chosen supplier name collides with an existing table,
`on_add_table` stops at the failing `CREATE TABLE` and changes nothing. -/
theorem on_add_table_name_taken (f : Nat → Bool) (sheets : List (String × Sheet))
    (s : DBState) (name path : String) (grid : List (String × String))
    (h : s.sideTables.any (fun p => p.1 == name) = true) :
    on_add_table f sheets s name path grid = (s, some "table already exists") := by
  unfold on_add_table
  rw [if_pos (by simp [h])]

/-- When neither the supplier name nor its mapping-table name nor the path
is taken, `on_add_table` creates the side table, registers the supplier and
hands the singleton entry to `on_update_price`. -/
theorem on_add_table_fresh (f : Nat → Bool) (sheets : List (String × Sheet))
    (st : DBState) (name path : String) (grid : List (String × String))
    (hp1 : (name == "ПРАЙС") = false)
    (hp2 : (name == "СПИСОК ПОСТАВЩИКОВ") = false)
    (htable : st.sideTables.any (fun p => p.1 == name) = false)
    (hsup : st.suppliers.any (fun p => p.1 == name || p.2 == path) = false) :
    on_add_table f sheets st name path grid =
      on_update_price_f f sheets [(name, path)]
        { st with suppliers := st.suppliers ++ [(name, path)],
                  sideTables := (st.sideTables ++ [(name, ([] : List (String × String)))]).map
                    (fun p => if p.1 == name then (p.1, p.2 ++ grid) else p) } := by
  unfold on_add_table
  rw [if_neg (by simp [hp1, hp2, htable])]
  dsimp only
  rw [if_neg (by simpa using hsup)]

/-- C9: registering a supplier name that is still free succeeds in adding
exactly one registry row for it, and registering the same name a second
time fails — the `CREATE TABLE` for the supplier's column-map table hits the
table created by the first registration — leaving the whole state, in
particular the registry with its single row for that name, unchanged. -/
theorem register_twice_fails (f f2 : Nat → Bool) (sheets sheets2 : List (String × Sheet))
    (st : DBState) (name path path2 : String) (grid grid2 : List (String × String))
    (hp1 : (name == "ПРАЙС") = false)
    (hp2 : (name == "СПИСОК ПОСТАВЩИКОВ") = false)
    (htable : st.sideTables.any (fun p => p.1 == name) = false)
    (hsup : st.suppliers.any (fun p => p.1 == name || p.2 == path) = false) :
    countName name (on_add_table f sheets st name path grid).1.suppliers = 1 ∧
    (on_add_table f2 sheets2 (on_add_table f sheets st name path grid).1 name path2 grid2).2 =
      some "table already exists" ∧
    (on_add_table f2 sheets2 (on_add_table f sheets st name path grid).1 name path2 grid2).1 =
      (on_add_table f sheets st name path grid).1 := by
  have hcount0 : countName name st.suppliers = 0 := by
    unfold countName
    rw [List.countP_eq_zero]
    intro p hp
    have := (List.any_eq_false.mp hsup) p hp
    intro hc
    simp [hc] at this
  have heq := on_add_table_fresh f sheets st name path grid hp1 hp2 htable hsup
  have hpres := on_update_price_preserves f sheets [(name, path)]
    { st with suppliers := st.suppliers ++ [(name, path)],
              sideTables := (st.sideTables ++ [(name, ([] : List (String × String)))]).map
                (fun p => if p.1 == name then (p.1, p.2 ++ grid) else p) }
  have hsupp1 : (on_add_table f sheets st name path grid).1.suppliers =
      st.suppliers ++ [(name, path)] := by
    rw [heq]
    exact hpres.1
  have hside1 : (on_add_table f sheets st name path grid).1.sideTables =
      (st.sideTables ++ [(name, ([] : List (String × String)))]).map
        (fun p => if p.1 == name then (p.1, p.2 ++ grid) else p) := by
    rw [heq]
    exact hpres.2
  have hmem : (on_add_table f sheets st name path grid).1.sideTables.any
      (fun p => p.1 == name) = true := by
    rw [hside1]
    simp
  have hsecond := on_add_table_name_taken f2 sheets2
    (on_add_table f sheets st name path grid).1 name path2 grid2 hmem
  refine ⟨?_, ?_, ?_⟩
  · rw [hsupp1]
    unfold countName
    rw [List.countP_append]
    unfold countName at hcount0
    rw [hcount0]
    simp
  · rw [hsecond]
  · rw [hsecond]

/-- With at least one token, all of them plain, the search executes: no
quote reaches the SQL literal, the engine parses the generated pattern back
into the tokens, and the result is the candidate rows sorted by rank. -/
theorem on_search_plain_eq (rank : Row → Int) (fields : List String) (tbl : Table)
    (hne : searchTokens fields ≠ [])
    (hp : ∀ t ∈ searchTokens fields, plainTok t = true) :
    on_search rank fields tbl = Except.ok
      (List.insertionSort (fun a b => rank a ≤ rank b)
        (tbl.rows.filter (fun r => (searchTokens fields).any (fun t => tokenPrefixMatch t r)))) := by
  have hq := buildPattern_no_quote (searchTokens fields) hp
  have hparse := parseFts_buildPattern (searchTokens fields) hne hp
  unfold on_search
  dsimp only
  rw [hq]
  rw [if_neg (by simp)]
  rw [hparse]

/-- C4: search whitespace-tokenizes every field's term into one flat token
list (empty terms contribute nothing), and — for plain tokens — the query
acts as one flat disjunction of prefix matches: the candidates are exactly
the rows in which some supplied token is a prefix of some indexed word of
some column, and they are returned ordered by the engine's relevance rank,
best (lowest rank) first. -/
theorem search_flat_prefix_disjunction (rank : Row → Int) (fields : List String) (tbl : Table)
    (hne : searchTokens fields ≠ [])
    (hp : ∀ t ∈ searchTokens fields, plainTok t = true) :
    ∃ out, on_search rank fields tbl = Except.ok out ∧
      List.Perm out (tbl.rows.filter
        (fun r => (searchTokens fields).any (fun t => tokenPrefixMatch t r))) ∧
      out.Sorted (fun a b => rank a ≤ rank b) :=
  ⟨_, on_search_plain_eq rank fields tbl hne hp,
    List.perm_insertionSort _ _, List.sorted_insertionSort _ _⟩

theorem search_flat_prefix_disjunction_witness :
    ∃ out, on_search (fun _ => 0) ["a1 b2"]
        ⟨["Поставщик", "Артикул"], [["Acme", "A100"], ["Beta", "C3"]]⟩ = Except.ok out ∧
      List.Perm out ((⟨["Поставщик", "Артикул"],
          [["Acme", "A100"], ["Beta", "C3"]]⟩ : Table).rows.filter
        (fun r => (searchTokens ["a1 b2"]).any (fun t => tokenPrefixMatch t r))) ∧
      out.Sorted (fun a b => (fun (_ : Row) => (0 : Int)) a ≤ (fun (_ : Row) => (0 : Int)) b) :=
  search_flat_prefix_disjunction (fun _ => 0) ["a1 b2"]
    ⟨["Поставщик", "Артикул"], [["Acme", "A100"], ["Beta", "C3"]]⟩ (by decide) (by decide)

/-- C3, counterexample: with every supplied term empty or whitespace there
are no tokens, the interpolated MATCH pattern is the single character `*`,
the FTS5 engine rejects it, and `on_search` reports an error — it does not
return zero rows. -/
theorem search_empty_terms_error :
    on_search (fun _ => 0) ["", " "] ⟨["Поставщик", "Артикул"], [["Acme", "A1"]]⟩ =
      Except.error "fts5: syntax error" := by
  decide

/-- C3 as amended, nothing-matches half: with at least one (plain) token
supplied and no row matching any token, the search returns zero rows and no
error. -/
theorem search_no_match_returns_zero_rows (rank : Row → Int) (fields : List String)
    (tbl : Table) (hne : searchTokens fields ≠ [])
    (hp : ∀ t ∈ searchTokens fields, plainTok t = true)
    (hnm : ∀ r ∈ tbl.rows, (searchTokens fields).any (fun t => tokenPrefixMatch t r) = false) :
    on_search rank fields tbl = Except.ok [] := by
  rw [on_search_plain_eq rank fields tbl hne hp]
  have hfil : tbl.rows.filter
      (fun r => (searchTokens fields).any (fun t => tokenPrefixMatch t r)) = [] :=
    List.filter_eq_nil_iff.mpr (fun r hr => by simp [hnm r hr])
  rw [hfil]
  rfl

theorem search_no_match_returns_zero_rows_witness :
    on_search (fun _ => 0) ["zz"] ⟨["c"], [["xy"]]⟩ = Except.ok [] :=
  search_no_match_returns_zero_rows (fun _ => 0) ["zz"] ⟨["c"], [["xy"]]⟩
    (by decide) (by decide) (by decide)

/-- C8, counterexample: the term `abc'def` is interpolated verbatim —
nothing is escaped — so its quote closes the SQL string literal after `abc`
and leaves the dangling identifier `def`; the statement fails to parse and
the search reports a syntax error instead of running a sanitized query. -/
theorem search_unescaped_metachar_counterexample :
    on_search (fun _ => 0) ["abc'def"] ⟨["Поставщик"], [["x"]]⟩ =
      Except.error "SQL syntax error" := by
  decide

/-- Every supplied token occurs verbatim — as a contiguous, unmodified run
of characters — inside the pattern built from the token list. -/
theorem token_infix_buildChars : ∀ (toks : List String) (t : String), t ∈ toks →
    List.IsInfix t.toList (buildChars toks)
  | [], t, ht => by simp at ht
  | [u], t, ht => by
    simp at ht
    subst ht
    exact ⟨[], ['*'], by simp [buildChars]⟩
  | u :: u2 :: us, t, ht => by
    rcases List.mem_cons.mp ht with ht | ht
    · subst ht
      exact ⟨[], '*' :: ' ' :: 'O' :: 'R' :: ' ' :: buildChars (u2 :: us),
        by simp [buildChars]⟩
    · obtain ⟨s, s2, hst⟩ := token_infix_buildChars (u2 :: us) t ht
      refine ⟨u.toList ++ '*' :: ' ' :: 'O' :: 'R' :: ' ' :: s, s2, ?_⟩
      simp only [buildChars, List.append_assoc, List.cons_append]
      rw [← hst]
      simp [List.append_assoc]

/-- C8 as amended: tokens are interpolated into the MATCH pattern verbatim —
every token is a contiguous substring of the pattern text, so no
metacharacter is escaped or sanitized — and what a quote-bearing term does
is therefore decided by the SQL text that follows its quote: `a*'--`
comments out the statement tail and successfully executes the injected
query `MATCH 'a*'` (rows in storage order, no dialog), while `abc'def`
leaves a dangling identifier and fails with the syntax error shown in the
error dialog. -/
theorem search_verbatim_interpolation :
    (∀ (fields : List String) (t : String), t ∈ searchTokens fields →
      List.IsInfix t.toList (buildPattern (searchTokens fields)).toList) ∧
    on_search (fun _ => 0) ["a*'--"] ⟨["Поставщик"], [["alpha"], ["beta"]]⟩ =
      Except.ok [["alpha"]] ∧
    on_search (fun _ => 0) ["abc'def"] ⟨["Поставщик"], [["alpha"], ["beta"]]⟩ =
      Except.error "SQL syntax error" := by
  refine ⟨?_, by decide, by decide⟩
  intro fields t ht
  rw [toList_buildPattern]
  exact token_infix_buildChars _ t ht

theorem search_verbatim_interpolation_witness :
    List.IsInfix ("abc'def" : String).toList
      (buildPattern (searchTokens ["abc'def"])).toList :=
  search_verbatim_interpolation.1 ["abc'def"] "abc'def" (by decide)

theorem register_twice_fails_witness :
    countName "Acme" (on_add_table (fun _ => false) [("a.xlsx", ⟨["Код"], [["A1"]]⟩)]
        ⟨["Поставщик", "Артикул"], [], [], []⟩ "Acme" "a.xlsx" [("Артикул", "Код")]).1.suppliers = 1 ∧
    (on_add_table (fun _ => false) [("a.xlsx", ⟨["Код"], [["A1"]]⟩)]
        (on_add_table (fun _ => false) [("a.xlsx", ⟨["Код"], [["A1"]]⟩)]
          ⟨["Поставщик", "Артикул"], [], [], []⟩ "Acme" "a.xlsx" [("Артикул", "Код")]).1
        "Acme" "b.xlsx" [("Артикул", "Код")]).2 = some "table already exists" ∧
    (on_add_table (fun _ => false) [("a.xlsx", ⟨["Код"], [["A1"]]⟩)]
        (on_add_table (fun _ => false) [("a.xlsx", ⟨["Код"], [["A1"]]⟩)]
          ⟨["Поставщик", "Артикул"], [], [], []⟩ "Acme" "a.xlsx" [("Артикул", "Код")]).1
        "Acme" "b.xlsx" [("Артикул", "Код")]).1 =
      (on_add_table (fun _ => false) [("a.xlsx", ⟨["Код"], [["A1"]]⟩)]
        ⟨["Поставщик", "Артикул"], [], [], []⟩ "Acme" "a.xlsx" [("Артикул", "Код")]).1 :=
  register_twice_fails (fun _ => false) (fun _ => false) _ _ _ "Acme" "a.xlsx" "b.xlsx" _ _
    (by decide) (by decide) (by decide) (by decide)
